import Mathlib

/-!
Shallow embedding of `src/smart_pointers.h`: a reference-counted shared-ownership
scheme with a control block (`BaseControlBlock` with `shared` and `weak` counters
of type `size_t`), strong handles (`SharedPtr<T>`), weak handles (`WeakPtr<T>`),
the construction helpers `makeShared` / `allocateShared`, and
`EnableSharedFromThis`.

Modelling conventions:
* All claims under study concern a single control block, so the heap is modelled
  as the state of that one block: its two `size_t` counters.
* `size_t` arithmetic is `Nat` modulo `2 ^ 64`: `++` is `inc64`, `--` is `dec64`.
* A handle is the pair of nullability flags of its two pointer fields
  (`ptr`, `cb`): `true` means non-null and, for `cb`, pointing at the block.
* Calls to the control-block virtuals `destroy()` and `deallocate()` are emitted
  as events in a list, in program order.
* A constructor body that dereferences a possibly null control-block pointer
  without a check is embedded as an `Option`-valued function: `none` models the
  null dereference (undefined behavior), `some` the defined outcome.
-/

namespace SmartPointers

/-- Number of values of `size_t`, `2 ^ 64` (written as a literal for `omega`). -/
def WORD : Nat := 18446744073709551616

/-- The effect of `++` on a `size_t` counter: wraps to 0 at `2 ^ 64`. On every
representable value (`n < WORD`) this agrees with addition modulo `2 ^ 64`;
see `inc64_mod`. -/
def inc64 (n : Nat) : Nat := if n + 1 = WORD then 0 else n + 1

/-- The effect of `--` on a `size_t` counter: 0 wraps to `2 ^ 64 - 1`. On every
representable value (`n < WORD`) this agrees with subtraction modulo `2 ^ 64`;
see `dec64_mod`. -/
def dec64 (n : Nat) : Nat := if n = 0 then WORD - 1 else n - 1

/-- State of one control block: the `shared` and `weak` counters of
`BaseControlBlock` (src lines 21-30). -/
structure BaseControlBlock where
  shared : Nat
  weak : Nat
  deriving DecidableEq

/-- Calls of the control-block virtuals, in program order. -/
inductive Ev
  | destroy
  | dealloc
  deriving DecidableEq

/-- A `SharedPtr<T>` handle: nullability of its `ptr` and `cb` fields
(src lines 84-87). `cb = true` means the handle references the control block. -/
structure SharedPtr where
  ptr : Bool
  cb : Bool
  deriving DecidableEq

/-- A default-constructed (empty) `SharedPtr` (src line 160). -/
def SharedPtr.empty : SharedPtr := ⟨false, false⟩

/-- A `WeakPtr<T>` handle: nullability of its `ptr` and `cb` fields
(src lines 353-356). -/
structure WeakPtr where
  ptr : Bool
  cb : Bool
  deriving DecidableEq

/-- A default-constructed (empty) `WeakPtr` (src line 408). -/
def WeakPtr.empty : WeakPtr := ⟨false, false⟩

/-- The result of `SharedPtr<T>::get()` (src lines 285-294): the stored `ptr` if
non-null, else the payload address derived from a `MakeSharedControlBlock` if
`cb` is non-null, else `nullptr`. Modelled as nullability of the result. -/
def SharedPtr.get (h : SharedPtr) : Bool := h.ptr || h.cb

/-- The result of `SharedPtr<T>::use_count()` (src lines 278-283). -/
def SharedPtr.use_count (h : SharedPtr) (s : BaseControlBlock) : Nat :=
  if h.cb then s.shared else 0

/-- The body of `SharedPtr<T>::clear()` (src lines 337-351): if `cb` is null do
nothing; otherwise `--cb->shared`; if the counter is now 0, call `destroy()`,
and additionally `deallocate()` if `cb->weak == 0`; finally null out `ptr` and
`cb`. Returns the updated handle, the updated block state, and the emitted
events. `~SharedPtr()` (src lines 273-276) calls exactly this. -/
def SharedPtr.clear (h : SharedPtr) (s : BaseControlBlock) : SharedPtr × BaseControlBlock × List Ev :=
  if h.cb = false then (h, s, [])
  else
    let sh := dec64 s.shared
    if sh = 0 then
      (SharedPtr.empty, ⟨sh, s.weak⟩,
        Ev.destroy :: (if s.weak = 0 then [Ev.dealloc] else []))
    else
      (SharedPtr.empty, ⟨sh, s.weak⟩, [])

/-- The same-type copy constructor `SharedPtr(const SharedPtr&)`
(src lines 198-204): copies both fields, then increments `cb->shared` only
after checking `cb != nullptr`. -/
def SharedPtr.copyCtor (src : SharedPtr) (s : BaseControlBlock) : SharedPtr × BaseControlBlock :=
  if src.cb then (src, ⟨inc64 s.shared, s.weak⟩) else (src, s)

/-- The templated covariant copy constructor `SharedPtr(const SharedPtr<Y>&)`
(src lines 190-196): copies both fields and runs `++shptr.cb->shared` with no
null check; `none` models the null dereference on an empty source. -/
def SharedPtr.copyCtorCov (src : SharedPtr) (s : BaseControlBlock) : Option (SharedPtr × BaseControlBlock) :=
  if src.cb then some (src, ⟨inc64 s.shared, s.weak⟩) else none

/-- The move constructor `SharedPtr(SharedPtr&&)` (src lines 206-211): steals
both fields, nulls the source, touches no counter. Returns
(new handle, moved-from source). -/
def SharedPtr.moveCtor (src : SharedPtr) : SharedPtr × SharedPtr := (src, SharedPtr.empty)

/-- `SharedPtr<T>::swap` (src lines 309-313): exchanges the two field pairs. -/
def SharedPtr.swapH (a b : SharedPtr) : SharedPtr × SharedPtr := (b, a)

/-- `SharedPtr<T>::reset()` (src lines 296-299): `SharedPtr<T>().swap(*this)`;
the temporary then holds the old state and is destroyed at the end of the full
expression, running `clear()` on it. -/
def SharedPtr.reset (h : SharedPtr) (s : BaseControlBlock) : SharedPtr × BaseControlBlock × List Ev :=
  let tmp := SharedPtr.empty
  let sw := SharedPtr.swapH h tmp
  let r := SharedPtr.clear sw.2 s
  (sw.1, r.2.1, r.2.2)

/-- The tail of the assignment operators after the temporary `copy` has been
constructed (src lines 222-255): `swap(copy); return *this;` followed by the
destruction of `copy` (now holding the old state of `*this`) at scope end. -/
def SharedPtr.tempThenSwap (this temp : SharedPtr) (s : BaseControlBlock) : SharedPtr × BaseControlBlock × List Ev :=
  let sw := SharedPtr.swapH this temp
  let r := SharedPtr.clear sw.2 s
  (sw.1, r.2.1, r.2.2)

/-- The same-type copy assignment `operator=(const SharedPtr&)`
(src lines 222-230): identity check `this == &shptr` first (modelled by
`isSelf`), else construct a temporary copy, swap with it, and let the
temporary destruct. Returns (new `*this`, block state, events). -/
def SharedPtr.assignCopy (isSelf : Bool) (this src : SharedPtr) (s : BaseControlBlock) :
    SharedPtr × BaseControlBlock × List Ev :=
  if isSelf then (this, s, [])
  else
    let cs := SharedPtr.copyCtor src s
    SharedPtr.tempThenSwap this cs.1 cs.2

/-- The same-type move assignment `operator=(SharedPtr&&)` (src lines 241-246):
construct a temporary by move, swap, let the temporary destruct. No identity
check. Returns ((new `*this`, moved-from source), block state, events). -/
def SharedPtr.assignMove (this src : SharedPtr) (s : BaseControlBlock) :
    (SharedPtr × SharedPtr) × BaseControlBlock × List Ev :=
  let mv := SharedPtr.moveCtor src
  let r := SharedPtr.tempThenSwap this mv.1 s
  ((r.1, mv.2), r.2.1, r.2.2)

/-- The non-templated `WeakPtr(const SharedPtr<T>&)` (src lines 410-413):
`ptr(sp.get()), cb(sp.cb)` then `++cb->weak` with no null check; `none` models
the null dereference on an empty source. -/
def WeakPtr.fromSharedSame (sp : SharedPtr) (s : BaseControlBlock) : Option (WeakPtr × BaseControlBlock) :=
  if sp.cb then some (⟨SharedPtr.get sp, sp.cb⟩, ⟨s.shared, inc64 s.weak⟩) else none

/-- The templated covariant `WeakPtr(const SharedPtr<Y>&)` (src lines 415-422):
same fields, but the increment is guarded by `cb != nullptr`. -/
def WeakPtr.fromSharedCov (sp : SharedPtr) (s : BaseControlBlock) : WeakPtr × BaseControlBlock :=
  if sp.cb then (⟨SharedPtr.get sp, sp.cb⟩, ⟨s.shared, inc64 s.weak⟩)
  else (⟨SharedPtr.get sp, sp.cb⟩, s)

/-- The same-type copy constructor `WeakPtr(const WeakPtr&)` (src lines
424-427): copies both fields and runs `++cb->weak` with no null check; `none`
models the null dereference on an empty source. -/
def WeakPtr.copyCtor (src : WeakPtr) (s : BaseControlBlock) : Option (WeakPtr × BaseControlBlock) :=
  if src.cb then some (src, ⟨s.shared, inc64 s.weak⟩) else none

/-- The templated covariant copy constructor `WeakPtr(const WeakPtr<Y>&)`
(src lines 429-436): the increment is guarded by `cb != nullptr`. -/
def WeakPtr.copyCtorCov (src : WeakPtr) (s : BaseControlBlock) : WeakPtr × BaseControlBlock :=
  if src.cb then (src, ⟨s.shared, inc64 s.weak⟩) else (src, s)

/-- `WeakPtr<T>::use_count()` (src lines 491-497): 0 if `cb` is null, else
`cb->shared`. -/
def WeakPtr.use_count (h : WeakPtr) (s : BaseControlBlock) : Nat :=
  if h.cb then s.shared else 0

/-- `WeakPtr<T>::expired()` (src lines 499-502): `use_count() == 0`. -/
def WeakPtr.expired (h : WeakPtr) (s : BaseControlBlock) : Bool :=
  WeakPtr.use_count h s == 0

/-- The body of `WeakPtr<T>::clear()` (src lines 518-529): if `cb` is null do
nothing; otherwise `--cb->weak`; if `cb->shared == 0 && cb->weak == 0`, call
`deallocate()`; finally null out `ptr` and `cb`. `~WeakPtr()` (src lines
486-489) calls exactly this. -/
def WeakPtr.clear (h : WeakPtr) (s : BaseControlBlock) : WeakPtr × BaseControlBlock × List Ev :=
  if h.cb = false then (h, s, [])
  else
    let wk := dec64 s.weak
    if s.shared = 0 ∧ wk = 0 then
      (WeakPtr.empty, ⟨s.shared, wk⟩, [Ev.dealloc])
    else
      (WeakPtr.empty, ⟨s.shared, wk⟩, [])

/-- The private `SharedPtr<T>::SharedPtr(WeakPtr<T> wptr)` body (src lines
320-335), acting on the (already copy-constructed) by-value parameter:
`ptr(wptr.ptr), cb(wptr.cb)`; if `cb` is non-null and `cb->shared == 0`, null
both fields; otherwise derive `ptr` from the `MakeSharedControlBlock` when it
is null and `++cb->shared`. Returns (new strong handle, parameter, state). -/
def SharedPtr.fromWeakBody (w : WeakPtr) (s : BaseControlBlock) : SharedPtr × WeakPtr × BaseControlBlock :=
  if w.cb then
    if s.shared = 0 then (SharedPtr.empty, w, s)
    else
      (⟨(if w.ptr = false then true else w.ptr), w.cb⟩, w,
        ⟨inc64 s.shared, s.weak⟩)
  else (⟨false, w.cb⟩, w, s)

/-- `WeakPtr<T>::lock()` (src lines 504-510): if `expired()`, return an empty
`SharedPtr`; otherwise return `SharedPtr<T>(*this)`. Because that private
constructor takes its `WeakPtr` parameter by value, the call copy-constructs a
parameter (incrementing `weak`), runs the body, and destroys the parameter at
the end of the full expression (running `WeakPtr::clear` on it). In the
non-expired branch `cb` is non-null, so the parameter copy cannot hit the
null-dereference case of `WeakPtr.copyCtor` (the `none` arm is unreachable there). -/
def WeakPtr.lock (h : WeakPtr) (s : BaseControlBlock) : SharedPtr × BaseControlBlock × List Ev :=
  if WeakPtr.expired h s then (SharedPtr.empty, s, [])
  else
    match WeakPtr.copyCtor h s with
    | none => (SharedPtr.empty, s, [])
    | some (param, s1) =>
      let b := SharedPtr.fromWeakBody param s1
      let r := WeakPtr.clear b.2.1 b.2.2
      (b.1, r.2.1, r.2.2)

/-- `EnableSharedFromThis<T>` (src lines 531-541): a class holding one private
`WeakPtr<T> wptr` member (default-initialized, hence empty) with
`shared_from_this()` returning `wptr.lock()`. -/
structure EnableSharedFromThis where
  wptr : WeakPtr

/-- A default-constructed `EnableSharedFromThis` subobject: its `wptr` member
is default-constructed, hence empty (src lines 408, 537). -/
def EnableSharedFromThis.mkDefault : EnableSharedFromThis := ⟨WeakPtr.empty⟩

/-- `EnableSharedFromThis<T>::shared_from_this()` (src line 534):
`return wptr.lock();`. -/
def EnableSharedFromThis.shared_from_this (e : EnableSharedFromThis) (s : BaseControlBlock) : SharedPtr × BaseControlBlock × List Ev :=
  WeakPtr.lock e.wptr s

/-- The result of `makeShared<T>()` / `allocateShared<T>(alloc)` (src lines
543-554 and 556-570) for a payload type deriving `EnableSharedFromThis<T>`:
allocate raw memory, placement-construct
`MakeSharedControlBlock<T, Alloc>(1, 0, cb_alloc, args...)` — whose constructor
in-place constructs the payload, whose `EnableSharedFromThis` base
default-constructs its `wptr` member to empty — and return `SharedPtr<T>(cb)`
via the private constructor (src lines 315-318: `ptr(nullptr)`,
`cb(make_shared_cb)`). No statement in either helper or in any constructor on
this path assigns to the embedded `wptr`. Returns
(strong handle, payload subobject, block state). -/
def makeSharedEnableSharedFromThis : SharedPtr × EnableSharedFromThis × BaseControlBlock :=
  (⟨false, true⟩, EnableSharedFromThis.mkDefault, ⟨1, 0⟩)

/-- Allocator events of a construction helper. -/
inductive AllocEv
  | allocate
  | deallocate
  deriving DecidableEq

/-- `makeShared<T>(args...)` (src lines 556-570) with the outcome of the
payload constructor made explicit: `allocate(cb_alloc, 1)`, then placement-new
of `MakeSharedControlBlock`, whose constructor (src lines 41-46) runs
`allocator_traits::construct` on the payload with the forwarded arguments.
There is no try/catch and no scope guard in the helper: if the payload
constructor throws (`ctorThrows = true`), the exception propagates out of
`makeShared` and no `deallocate` is ever issued for `raw_memory`. Otherwise
`SharedPtr<T>(cb)` is returned on a block with counts `(1, 0)`. -/
def makeSharedRun (ctorThrows : Bool) :
    Except Unit (SharedPtr × BaseControlBlock) × List AllocEv :=
  if ctorThrows then (Except.error (), [AllocEv.allocate])
  else (Except.ok (⟨false, true⟩, ⟨1, 0⟩), [AllocEv.allocate])

/-- `allocateShared<T>(alloc, args...)` (src lines 543-554): identical
structure to `makeShared` — `allocate(cb_alloc, 1)`, placement-new of
`MakeSharedControlBlock` (payload constructed inside its constructor), no
try/catch, `SharedPtr<T>(cb)` returned. -/
def allocateSharedRun (ctorThrows : Bool) :
    Except Unit (SharedPtr × BaseControlBlock) × List AllocEv :=
  if ctorThrows then (Except.error (), [AllocEv.allocate])
  else (Except.ok (⟨false, true⟩, ⟨1, 0⟩), [AllocEv.allocate])

/-!
Trace semantics: the operations that a program can perform on handles sharing
one control block, together with their counter effects and emitted events.
Each step is defined through the handle-level embedding above, applied to a
live handle `⟨true, true⟩` referencing the block. Validity of an operation
requires the corresponding live handle to exist, which in a sequential
execution is exactly a positive corresponding counter (each live strong handle
contributed 1 to `shared`, each live weak handle 1 to `weak`).
-/

/-- One operation over the control block. -/
inductive Op
  | sCopy
  | sMove
  | sRel
  | wNew
  | wCopy
  | wMove
  | wRel
  deriving DecidableEq

/-- Whether an operation can be performed in state `s`: operations performed
through a live strong handle need `1 ≤ shared`, operations performed through a
live weak handle need `1 ≤ weak`. -/
def Op.validB : Op → BaseControlBlock → Bool
  | .sCopy, s => 1 ≤ s.shared
  | .sMove, s => 1 ≤ s.shared
  | .sRel, s => 1 ≤ s.shared
  | .wNew, s => 1 ≤ s.shared
  | .wCopy, s => 1 ≤ s.weak
  | .wMove, s => 1 ≤ s.weak
  | .wRel, s => 1 ≤ s.weak

/-- Operations performed through a weak handle (or creating one). -/
def Op.isWeak : Op → Bool
  | .wNew => true
  | .wCopy => true
  | .wMove => true
  | .wRel => true
  | _ => false

/-- Projects the state out of the result of an `Option`-valued constructor
embedding, keeping the old state in the (undefined-behavior) `none` case. -/
def stateOfOpt (s : BaseControlBlock) : Option (WeakPtr × BaseControlBlock) → BaseControlBlock
  | some p => p.2
  | none => s

/-- The counter effect and emitted events of one operation, via the
handle-level embedding: `sCopy` is `SharedPtr.copyCtor`, `sRel` is `SharedPtr.clear`
(destructor or `reset()`), `wNew` is `WeakPtr.fromSharedSame`, `wCopy` is
`WeakPtr.copyCtor`, `wRel` is `WeakPtr.clear`; moves touch no counter (src lines
206-211, 438-442). -/
def Op.step : Op → BaseControlBlock → BaseControlBlock × List Ev
  | .sCopy, s => ((SharedPtr.copyCtor ⟨true, true⟩ s).2, [])
  | .sMove, s => (s, [])
  | .sRel, s => (SharedPtr.clear ⟨true, true⟩ s).2
  | .wNew, s => (stateOfOpt s (WeakPtr.fromSharedSame ⟨true, true⟩ s), [])
  | .wCopy, s => (stateOfOpt s (WeakPtr.copyCtor ⟨true, true⟩ s), [])
  | .wMove, s => (s, [])
  | .wRel, s => (WeakPtr.clear ⟨true, true⟩ s).2

/-- Final state after running a list of operations. -/
def runState (s : BaseControlBlock) : List Op → BaseControlBlock
  | [] => s
  | op :: r => runState (op.step s).1 r

/-- Concatenated events emitted while running a list of operations. -/
def runEvents (s : BaseControlBlock) : List Op → List Ev
  | [] => []
  | op :: r => (op.step s).2 ++ runEvents (op.step s).1 r

/-- Every operation of the list is valid in the state it runs in. -/
def validFromB (s : BaseControlBlock) : List Op → Bool
  | [] => true
  | op :: r => op.validB s && validFromB (op.step s).1 r

/-- The control-block state produced by a construction helper or an owning
constructor: `shared = 1`, `weak = 0` (src lines 171, 186, 552, 567). -/
def initCB : BaseControlBlock := ⟨1, 0⟩

/-- Number of occurrences of an event in a list. -/
def countEv (e : Ev) : List Ev → Nat
  | [] => 0
  | x :: r => (if x = e then 1 else 0) + countEv e r

/-- Scans an event list checking that every `dealloc` is preceded by a
`destroy`; the flag records whether a `destroy` has been seen. Returns the
final flag, or `none` if some `dealloc` precedes every `destroy`. -/
def seqRun : Bool → List Ev → Option Bool
  | sd, [] => some sd
  | _, Ev.destroy :: r => seqRun true r
  | sd, Ev.dealloc :: r => if sd then seqRun sd r else none

/-! Arithmetic facts about the `size_t` increment and decrement. -/

lemma inc64_mod {n : Nat} (h : n < WORD) : inc64 n = (n + 1) % WORD := by
  unfold inc64 WORD at *
  split <;> omega

lemma dec64_mod {n : Nat} (h : n < WORD) :
    dec64 n = (n + (WORD - 1)) % WORD := by
  unfold dec64 WORD at *
  split <;> omega

lemma inc64_eq {n : Nat} (h : n + 1 < WORD) : inc64 n = n + 1 := by
  unfold inc64 WORD at *
  split <;> omega

lemma dec64_eq {n : Nat} (h1 : 1 ≤ n) (h2 : n < WORD) : dec64 n = n - 1 := by
  unfold dec64 WORD at *
  split <;> omega

lemma inc64_lt {n : Nat} (h : n < WORD) : inc64 n < WORD := by
  unfold inc64 WORD at *
  split <;> omega

lemma dec64_inc64 {n : Nat} (h : n + 1 < WORD) : dec64 (inc64 n) = n := by
  rw [inc64_eq h, dec64_eq (by omega) (by omega)]
  omega

/-! Closed forms of the step function on states where the acting handle is
live, with the `size_t` wrap-arounds discharged by the counter bounds. -/

lemma step_sCopy_live (s : BaseControlBlock) (h : s.shared + 1 < WORD) :
    Op.step Op.sCopy s = (⟨s.shared + 1, s.weak⟩, []) := by
  simp [Op.step, SharedPtr.copyCtor, inc64_eq h]

lemma step_sMove_id (s : BaseControlBlock) : Op.step Op.sMove s = (s, []) := rfl

lemma step_wMove_id (s : BaseControlBlock) : Op.step Op.wMove s = (s, []) := rfl

lemma step_sRel_live (s : BaseControlBlock) (h1 : 1 ≤ s.shared) (h2 : s.shared < WORD) :
    Op.step Op.sRel s =
      (⟨s.shared - 1, s.weak⟩,
        if s.shared - 1 = 0 then
          Ev.destroy :: (if s.weak = 0 then [Ev.dealloc] else [])
        else []) := by
  by_cases hz : s.shared - 1 = 0 <;>
    simp [Op.step, SharedPtr.clear, dec64_eq h1 h2, hz]

lemma step_wNew_live (s : BaseControlBlock) (h : s.weak + 1 < WORD) :
    Op.step Op.wNew s = (⟨s.shared, s.weak + 1⟩, []) := by
  simp [Op.step, stateOfOpt, WeakPtr.fromSharedSame, inc64_eq h]

lemma step_wCopy_live (s : BaseControlBlock) (h : s.weak + 1 < WORD) :
    Op.step Op.wCopy s = (⟨s.shared, s.weak + 1⟩, []) := by
  simp [Op.step, stateOfOpt, WeakPtr.copyCtor, inc64_eq h]

lemma step_wRel_live (s : BaseControlBlock) (h1 : 1 ≤ s.weak) (h2 : s.weak < WORD) :
    Op.step Op.wRel s =
      (⟨s.shared, s.weak - 1⟩,
        if s.shared = 0 ∧ s.weak - 1 = 0 then [Ev.dealloc] else []) := by
  by_cases hz : s.shared = 0 ∧ s.weak - 1 = 0 <;>
    simp [Op.step, WeakPtr.clear, dec64_eq h1 h2, hz]

/-! Basic lemmas about event counting and the destroy-before-dealloc scan. -/

lemma countEv_append (e : Ev) (xs ys : List Ev) :
    countEv e (xs ++ ys) = countEv e xs + countEv e ys := by
  induction xs with
  | nil => simp [countEv]
  | cons x r ih => simp [countEv, ih]; omega

lemma seqRun_append (b : Bool) (xs ys : List Ev) :
    seqRun b (xs ++ ys) = (seqRun b xs).bind (fun c => seqRun c ys) := by
  induction xs generalizing b with
  | nil => simp [seqRun]
  | cons x r ih =>
    cases x with
    | destroy => simp [seqRun, ih]
    | dealloc =>
      cases b with
      | true => simp [seqRun, ih]
      | false => simp [seqRun]

/-! Composition lemmas for traces. -/

lemma runState_append (s : BaseControlBlock) (p q : List Op) :
    runState s (p ++ q) = runState (runState s p) q := by
  induction p generalizing s with
  | nil => simp [runState]
  | cons op r ih => simp [runState, ih]

lemma runEvents_append (s : BaseControlBlock) (p q : List Op) :
    runEvents s (p ++ q) = runEvents s p ++ runEvents (runState s p) q := by
  induction p generalizing s with
  | nil => simp [runState, runEvents]
  | cons op r ih => simp [runState, runEvents, ih]

lemma validFromB_append (s : BaseControlBlock) (p q : List Op) :
    validFromB s (p ++ q) =
      (validFromB s p && validFromB (runState s p) q) := by
  induction p generalizing s with
  | nil => simp [validFromB, runState]
  | cons op r ih =>
    simp [validFromB, runState, ih, Bool.and_assoc]

/-- Invariant tying the events emitted so far to the control-block state:
`destroy()` has run exactly once iff `shared` is 0, `deallocate()` has run
exactly once iff both counters are 0, and the scan checking that every
`dealloc` is preceded by a `destroy` succeeds, its flag recording whether
`shared` is 0. -/
def EvInv (s : BaseControlBlock) (evs : List Ev) : Prop :=
  countEv Ev.destroy evs = (if s.shared = 0 then 1 else 0) ∧
  countEv Ev.dealloc evs = (if s.shared = 0 ∧ s.weak = 0 then 1 else 0) ∧
  seqRun false evs = some (decide (s.shared = 0))

lemma step_inv (op : Op) (s : BaseControlBlock) (evs : List Ev)
    (hv : op.validB s = true) (hb : s.shared + s.weak + 1 < WORD)
    (hinv : EvInv s evs) :
    EvInv (op.step s).1 (evs ++ (op.step s).2) ∧
    (op.step s).1.shared + (op.step s).1.weak ≤ s.shared + s.weak + 1 := by
  obtain ⟨hd, ha, hs⟩ := hinv
  cases op with
  | sCopy =>
    simp only [Op.validB, decide_eq_true_eq] at hv
    rw [step_sCopy_live s (by omega)]
    refine ⟨⟨?_, ?_, ?_⟩, ?_⟩ <;>
      simp [countEv_append, seqRun_append, hd, ha, hs, seqRun, countEv,
        (show ¬(s.shared = 0) by omega)] <;> omega
  | sMove =>
    simp only [Op.validB, decide_eq_true_eq] at hv
    rw [step_sMove_id s]
    refine ⟨⟨?_, ?_, ?_⟩, ?_⟩ <;> simp [hd, ha, hs]
  | sRel =>
    simp only [Op.validB, decide_eq_true_eq] at hv
    rw [step_sRel_live s hv (by omega)]
    by_cases h1 : s.shared - 1 = 0
    · by_cases h2 : s.weak = 0 <;>
        refine ⟨⟨?_, ?_, ?_⟩, ?_⟩ <;>
          simp [h1, h2, countEv_append, seqRun_append, hd, ha, hs, seqRun,
            countEv, (show s.shared = 1 by omega)] <;> omega
    · refine ⟨⟨?_, ?_, ?_⟩, ?_⟩ <;>
        simp [h1, countEv_append, seqRun_append, hd, ha, hs, seqRun, countEv,
          (show ¬(s.shared = 0) by omega)] <;> omega
  | wNew =>
    simp only [Op.validB, decide_eq_true_eq] at hv
    rw [step_wNew_live s (by omega)]
    refine ⟨⟨?_, ?_, ?_⟩, ?_⟩ <;>
      simp [countEv_append, seqRun_append, hd, ha, hs, seqRun, countEv,
        (show ¬(s.shared = 0) by omega)] <;> omega
  | wCopy =>
    simp only [Op.validB, decide_eq_true_eq] at hv
    rw [step_wCopy_live s (by omega)]
    refine ⟨⟨?_, ?_, ?_⟩, ?_⟩ <;>
      simp [countEv_append, seqRun_append, hd, ha, hs, seqRun, countEv,
        (show ¬(s.weak = 0) by omega)] <;> omega
  | wMove =>
    simp only [Op.validB, decide_eq_true_eq] at hv
    rw [step_wMove_id s]
    refine ⟨⟨?_, ?_, ?_⟩, ?_⟩ <;> simp [hd, ha, hs]
  | wRel =>
    simp only [Op.validB, decide_eq_true_eq] at hv
    rw [step_wRel_live s hv (by omega)]
    by_cases hz : s.shared = 0 ∧ s.weak - 1 = 0
    · refine ⟨⟨?_, ?_, ?_⟩, ?_⟩ <;>
        simp [hz, hz.1, countEv_append, seqRun_append, hd, ha, hs, seqRun,
          countEv, (show s.weak = 1 by omega)]
    · refine ⟨⟨?_, ?_, ?_⟩, ?_⟩ <;>
        simp [hz, countEv_append, seqRun_append, hd, ha, hs, seqRun, countEv,
          (show ¬(s.weak = 0) by omega)] <;> omega

lemma run_inv (ops : List Op) (s : BaseControlBlock) (evs : List Ev)
    (hv : validFromB s ops = true)
    (hb : s.shared + s.weak + ops.length < WORD)
    (hinv : EvInv s evs) :
    EvInv (runState s ops) (evs ++ runEvents s ops) ∧
    (runState s ops).shared + (runState s ops).weak ≤
      s.shared + s.weak + ops.length := by
  induction ops generalizing s evs with
  | nil =>
    refine ⟨by simpa [runState, runEvents] using hinv, by simp [runState]⟩
  | cons op r ih =>
    simp only [validFromB, Bool.and_eq_true] at hv
    have hstep := step_inv op s evs hv.1 (by simp at hb; omega) hinv
    have hrest := ih (op.step s).1 (evs ++ (op.step s).2) hv.2
      (by simp at hb ⊢; omega) hstep.1
    refine ⟨?_, ?_⟩
    · simpa [runState, runEvents, List.append_assoc] using hrest.1
    · have := hrest.2
      simp [runState, runEvents] at this ⊢
      omega

lemma run_inv_init (ops : List Op) (hv : validFromB initCB ops = true)
    (hb : 1 + ops.length < WORD) :
    EvInv (runState initCB ops) (runEvents initCB ops) ∧
    (runState initCB ops).shared + (runState initCB ops).weak ≤
      1 + ops.length := by
  have hbase : EvInv initCB [] := by
    refine ⟨by simp [countEv, initCB], by simp [countEv, initCB],
      by simp [seqRun, initCB]⟩
  have := run_inv ops initCB [] hv (by simp [initCB]; omega) hbase
  simpa [initCB] using this

lemma step_destroy_iff (op : Op) (s : BaseControlBlock) (hv : op.validB s = true)
    (hb : s.shared + s.weak + 1 < WORD) :
    Ev.destroy ∈ (op.step s).2 ↔ (op = Op.sRel ∧ s.shared = 1) := by
  cases op <;> simp only [Op.validB, decide_eq_true_eq] at hv
  case sCopy => rw [step_sCopy_live s (by omega)]; simp
  case sMove => rw [step_sMove_id s]; simp
  case sRel =>
    rw [step_sRel_live s hv (by omega)]
    by_cases h1 : s.shared - 1 = 0
    · by_cases h2 : s.weak = 0 <;> simp [h1, h2] <;> omega
    · simp [h1] <;> omega
  case wNew => rw [step_wNew_live s (by omega)]; simp
  case wCopy => rw [step_wCopy_live s (by omega)]; simp
  case wMove => rw [step_wMove_id s]; simp
  case wRel =>
    rw [step_wRel_live s hv (by omega)]
    by_cases hz : s.shared = 0 ∧ s.weak - 1 = 0 <;> simp [hz]

lemma step_dealloc_iff (op : Op) (s : BaseControlBlock) (hv : op.validB s = true)
    (hb : s.shared + s.weak + 1 < WORD) :
    Ev.dealloc ∈ (op.step s).2 ↔
      ((op.step s).1.shared = 0 ∧ (op.step s).1.weak = 0) := by
  cases op <;> simp only [Op.validB, decide_eq_true_eq] at hv
  case sCopy => rw [step_sCopy_live s (by omega)]; simp
  case sMove => rw [step_sMove_id s]; simp; omega
  case sRel =>
    rw [step_sRel_live s hv (by omega)]
    by_cases h1 : s.shared - 1 = 0
    · by_cases h2 : s.weak = 0 <;> simp [h1, h2]
    · simp [h1]
  case wNew => rw [step_wNew_live s (by omega)]; simp
  case wCopy => rw [step_wCopy_live s (by omega)]; simp
  case wMove => rw [step_wMove_id s]; simp; omega
  case wRel =>
    rw [step_wRel_live s hv (by omega)]
    by_cases hz : s.shared = 0 ∧ s.weak - 1 = 0
    · simp [hz, hz.1, hz.2]
    · simp [hz]

/-!
Claim theorems.
-/

/-- C1: for every `SharedPtr` holding a control block (`cb` non-null, a live
handle so `1 ≤ shared`), `clear()` — run by the destructor and by `reset()` —
decrements `shared`; if it reaches 0 it calls `destroy()` and then calls
`deallocate()` additionally exactly when `weak` is also 0; it nulls out the
internal `ptr` and `cb` fields; and if `shared` remains positive it calls
neither `destroy()` nor `deallocate()`. `reset()` performs the same release
and leaves the handle empty. -/
theorem clear_two_phase_release (h : SharedPtr) (s : BaseControlBlock)
    (hcb : h.cb = true) (h1 : 1 ≤ s.shared) (h2 : s.shared < WORD) :
    ((SharedPtr.clear h s).2.1.shared = s.shared - 1 ∧
     (SharedPtr.clear h s).2.1.weak = s.weak) ∧
    ((SharedPtr.clear h s).1 = SharedPtr.empty) ∧
    (s.shared - 1 = 0 →
      (SharedPtr.clear h s).2.2 =
        Ev.destroy :: (if s.weak = 0 then [Ev.dealloc] else [])) ∧
    (1 ≤ s.shared - 1 →
      Ev.destroy ∉ (SharedPtr.clear h s).2.2 ∧ Ev.dealloc ∉ (SharedPtr.clear h s).2.2) ∧
    (SharedPtr.reset h s = (SharedPtr.empty, (SharedPtr.clear h s).2.1, (SharedPtr.clear h s).2.2)) := by
  by_cases hz : s.shared - 1 = 0 <;>
    simp [SharedPtr.clear, SharedPtr.reset, SharedPtr.swapH, SharedPtr.empty, hcb, dec64_eq h1 h2, hz]

/-- Witness for C1 at a live handle over a block with `shared = 1, weak = 0`:
the release destroys the payload and deallocates the block. -/
theorem clear_two_phase_release_witness :
    (SharedPtr.clear ⟨true, true⟩ ⟨1, 0⟩).2.1.shared = 1 - 1 ∧
    (SharedPtr.clear ⟨true, true⟩ ⟨1, 0⟩).2.2 =
      Ev.destroy :: (if (0 : Nat) = 0 then [Ev.dealloc] else []) :=
  ⟨(clear_two_phase_release ⟨true, true⟩ ⟨1, 0⟩ rfl (by decide) (by decide)).1.1,
   (clear_two_phase_release ⟨true, true⟩ ⟨1, 0⟩ rfl (by decide)
      (by decide)).2.2.1 (by decide)⟩

/-- C4: the construction helpers never populate the embedded
`EnableSharedFromThis` weak handle — no statement in `makeShared`,
`allocateShared`, `MakeSharedControlBlock` or the private `SharedPtr`
constructor assigns to `wptr` — so after `makeShared` over a payload deriving
`EnableSharedFromThis`, the embedded `wptr` is still empty and
`shared_from_this()` returns an empty `SharedPtr` with `use_count() = 0`
(instead of the external count plus one claimed by the specification), while
the external handle has `use_count() = 1`. -/
theorem make_shared_does_not_populate_self_observation :
    makeSharedEnableSharedFromThis.2.1.wptr = WeakPtr.empty ∧
    (EnableSharedFromThis.shared_from_this makeSharedEnableSharedFromThis.2.1 makeSharedEnableSharedFromThis.2.2).1 =
      SharedPtr.empty ∧
    SharedPtr.use_count (EnableSharedFromThis.shared_from_this makeSharedEnableSharedFromThis.2.1 makeSharedEnableSharedFromThis.2.2).1
      (EnableSharedFromThis.shared_from_this makeSharedEnableSharedFromThis.2.1 makeSharedEnableSharedFromThis.2.2).2.1 = 0 ∧
    SharedPtr.use_count makeSharedEnableSharedFromThis.1 makeSharedEnableSharedFromThis.2.2 = 1 := by
  refine ⟨rfl, rfl, rfl, rfl⟩

/-- C5: `WeakPtr::lock()` never fails: on an empty or expired handle it
returns an empty `SharedPtr` with `use_count() = 0` and touches nothing;
otherwise it returns a handle sharing the control block with `shared`
incremented by one (the transient by-value parameter copy leaves `weak`
unchanged), and `WeakPtr::use_count()` returns the control-block strong count
(0 when the handle is empty). -/
theorem lock_never_fails (h : WeakPtr) (s : BaseControlBlock)
    (hs : s.shared + 1 < WORD) (hw : s.weak + 1 < WORD) :
    (WeakPtr.use_count h s = if h.cb = true then s.shared else 0) ∧
    ((h.cb = false ∨ s.shared = 0) →
      WeakPtr.lock h s = (SharedPtr.empty, s, []) ∧
      SharedPtr.use_count (WeakPtr.lock h s).1 (WeakPtr.lock h s).2.1 = 0) ∧
    (h.cb = true → 1 ≤ s.shared →
      (WeakPtr.lock h s).1.cb = true ∧
      (WeakPtr.lock h s).2.1 = ⟨s.shared + 1, s.weak⟩ ∧
      (WeakPtr.lock h s).2.2 = [] ∧
      SharedPtr.use_count (WeakPtr.lock h s).1 (WeakPtr.lock h s).2.1 = s.shared + 1) := by
  refine ⟨by simp [WeakPtr.use_count], ?_, ?_⟩
  · rintro (hcb | hsh)
    · simp [WeakPtr.lock, WeakPtr.expired, WeakPtr.use_count, hcb, SharedPtr.empty, SharedPtr.use_count]
    · by_cases hcb : h.cb = true <;>
        simp [WeakPtr.lock, WeakPtr.expired, WeakPtr.use_count, hcb, hsh, SharedPtr.empty,
          SharedPtr.use_count]
  · intro hcb hpos
    have hd : dec64 (s.weak + 1) = s.weak :=
      dec64_eq (by omega) (by omega)
    simp [WeakPtr.lock, WeakPtr.expired, WeakPtr.use_count, hcb,
      (show ¬(s.shared = 0) by omega), WeakPtr.copyCtor, SharedPtr.fromWeakBody,
      WeakPtr.clear, inc64_eq hw, inc64_eq hs, hd, SharedPtr.use_count]

/-- Witness for C5 at a weak handle over a live block `shared = 1, weak = 1`
and at an expired block `shared = 0, weak = 1`. -/
theorem lock_never_fails_witness :
    ((WeakPtr.lock ⟨false, true⟩ ⟨1, 1⟩).2.1 = (⟨2, 1⟩ : BaseControlBlock) ∧
      SharedPtr.use_count (WeakPtr.lock ⟨false, true⟩ ⟨1, 1⟩).1
        (WeakPtr.lock ⟨false, true⟩ ⟨1, 1⟩).2.1 = 2) ∧
    (WeakPtr.lock ⟨false, true⟩ ⟨0, 1⟩ = (SharedPtr.empty, ⟨0, 1⟩, [])) :=
  ⟨⟨((lock_never_fails ⟨false, true⟩ ⟨1, 1⟩ (by decide) (by decide)).2.2
      rfl (by decide)).2.1,
    ((lock_never_fails ⟨false, true⟩ ⟨1, 1⟩ (by decide) (by decide)).2.2
      rfl (by decide)).2.2.2⟩,
   ((lock_never_fails ⟨false, true⟩ ⟨0, 1⟩ (by decide) (by decide)).2.1
      (Or.inr rfl)).1⟩

/-- C6 counterexample: copy-constructing from an empty `WeakPtr` is not
well-defined — the same-type `WeakPtr` copy constructor runs `++cb->weak`
with no null check, dereferencing the null control-block pointer (modelled by
`none`), whereas the same-type `SharedPtr` copy constructor on an empty source
is a checked no-op. This refutes the claimed mirror of the strong handle's
empty-source safety. -/
theorem weakptr_copy_empty_counterexample :
    WeakPtr.copyCtor WeakPtr.empty ⟨0, 1⟩ = none ∧
    SharedPtr.copyCtor SharedPtr.empty ⟨0, 1⟩ = (SharedPtr.empty, ⟨0, 1⟩) := by
  refine ⟨rfl, rfl⟩

/-- C6 (amended): the same-type `WeakPtr` copy constructor shares the control
block and increments `weak` for a non-empty source, but unlike the same-type
`SharedPtr` copy constructor it performs no null check, so an empty source
dereferences a null control-block pointer (non-emptiness is a precondition);
the templated covariant `WeakPtr` copy constructor is the overload that
tolerates an empty source and touches no counter. -/
theorem weakptr_copy_mirror_amended (w : WeakPtr) (s : BaseControlBlock)
    (hw : s.weak + 1 < WORD) :
    (w.cb = true → WeakPtr.copyCtor w s = some (w, ⟨s.shared, s.weak + 1⟩)) ∧
    (w.cb = false → WeakPtr.copyCtor w s = none) ∧
    (SharedPtr.copyCtor SharedPtr.empty s = (SharedPtr.empty, s)) ∧
    (WeakPtr.copyCtorCov WeakPtr.empty s = (WeakPtr.empty, s)) := by
  refine ⟨fun hcb => ?_, fun hcb => ?_, ?_, ?_⟩ <;>
    simp [WeakPtr.copyCtor, WeakPtr.copyCtorCov, SharedPtr.copyCtor, SharedPtr.empty, WeakPtr.empty, *,
      inc64_eq hw]

/-- Witness for the amended C6 at a live weak handle and a concrete state. -/
theorem weakptr_copy_mirror_amended_witness :
    WeakPtr.copyCtor ⟨true, true⟩ ⟨1, 1⟩ = some (⟨true, true⟩, ⟨1, 2⟩) ∧
    WeakPtr.copyCtor ⟨false, false⟩ ⟨1, 1⟩ = none :=
  ⟨(weakptr_copy_mirror_amended ⟨true, true⟩ ⟨1, 1⟩ (by decide)).1 rfl,
   (weakptr_copy_mirror_amended ⟨false, false⟩ ⟨1, 1⟩ (by decide)).2.1 rfl⟩

/-- C7: in `makeShared` and `allocateShared`, when the allocation succeeds but
the payload constructor throws (inside the placement-new of
`MakeSharedControlBlock`), the failure propagates to the caller, but — with no
try/catch or scope guard in either helper — the intermediate allocation is
never released: the allocator event trace contains the `allocate` and no
`deallocate`, contradicting the required scoped-acquisition discipline. The
non-throwing path returns a strong handle on a fresh block with counts
`(1, 0)`. -/
theorem make_shared_leaks_on_ctor_throw :
    (makeSharedRun true).1 = Except.error () ∧
    (makeSharedRun true).2 = [AllocEv.allocate] ∧
    AllocEv.deallocate ∉ (makeSharedRun true).2 ∧
    (allocateSharedRun true).1 = Except.error () ∧
    (allocateSharedRun true).2 = [AllocEv.allocate] ∧
    AllocEv.deallocate ∉ (allocateSharedRun true).2 ∧
    (makeSharedRun false).1 = Except.ok (⟨false, true⟩, ⟨1, 0⟩) := by
  refine ⟨rfl, rfl, by decide, rfl, rfl, by decide, rfl⟩

/-- C8: `SharedPtr` copy assignment is the identity when the identity check
`this == &shptr` fires, leaving handle, counters and event trace unchanged;
otherwise copy assignment and move assignment are exactly
construct-a-temporary-then-swap (the temporary, holding the old state of
`*this`, is released at scope end, so `*this` is not modified before the
temporary is fully constructed); between two live handles of one block the
net counter effect of copy assignment is zero and no destroy or deallocate is
emitted, and move assignment releases exactly the overwritten reference. -/
theorem assign_temp_swap_self_noop (this src : SharedPtr) (s : BaseControlBlock)
    (hs : s.shared + 1 < WORD) :
    (SharedPtr.assignCopy true this this s = (this, s, [])) ∧
    (SharedPtr.assignCopy false this src s =
      SharedPtr.tempThenSwap this (SharedPtr.copyCtor src s).1 (SharedPtr.copyCtor src s).2) ∧
    (SharedPtr.assignMove this src s =
      (((SharedPtr.tempThenSwap this (SharedPtr.moveCtor src).1 s).1, SharedPtr.empty),
        (SharedPtr.tempThenSwap this (SharedPtr.moveCtor src).1 s).2.1,
        (SharedPtr.tempThenSwap this (SharedPtr.moveCtor src).1 s).2.2)) ∧
    (this.cb = true → src.cb = true → 2 ≤ s.shared →
      SharedPtr.assignCopy false this src s = (src, s, [])) ∧
    (this.cb = true → src.cb = true → 2 ≤ s.shared →
      SharedPtr.assignMove this src s =
        ((src, SharedPtr.empty), ⟨s.shared - 1, s.weak⟩, [])) := by
  refine ⟨rfl, rfl, rfl, fun hthis hsrc h2 => ?_, fun hthis hsrc h2 => ?_⟩
  · have hd : dec64 (s.shared + 1) = s.shared :=
      dec64_eq (by omega) (by omega)
    simp [SharedPtr.assignCopy, SharedPtr.tempThenSwap, SharedPtr.swapH, SharedPtr.copyCtor, SharedPtr.clear,
      hthis, hsrc, inc64_eq hs, hd, (show ¬(s.shared = 0) by omega)]
  · have hd : dec64 s.shared = s.shared - 1 :=
      dec64_eq (by omega) (by omega)
    simp [SharedPtr.assignMove, SharedPtr.tempThenSwap, SharedPtr.swapH, SharedPtr.moveCtor, SharedPtr.clear,
      hthis, hsrc, hd, (show ¬(s.shared - 1 = 0) by omega)]

/-- Witness for C8: self copy assignment at a live handle is a no-op, and copy
assignment between two live handles of a block with `shared = 2` leaves the
counters unchanged. -/
theorem assign_temp_swap_self_noop_witness :
    SharedPtr.assignCopy true ⟨true, true⟩ ⟨true, true⟩ ⟨2, 0⟩ =
      (⟨true, true⟩, ⟨2, 0⟩, []) ∧
    SharedPtr.assignCopy false ⟨true, true⟩ ⟨true, true⟩ ⟨2, 0⟩ =
      (⟨true, true⟩, ⟨2, 0⟩, []) :=
  ⟨(assign_temp_swap_self_noop ⟨true, true⟩ ⟨true, true⟩ ⟨2, 0⟩ (by decide)).1,
   (assign_temp_swap_self_noop ⟨true, true⟩ ⟨true, true⟩ ⟨2, 0⟩
      (by decide)).2.2.2.1 rfl rfl (by decide)⟩

/-- C9: constructing a `WeakPtr` from a `SharedPtr` shares the control block
and increments `weak`, with asymmetric empty-source handling: the
non-templated same-type overload dereferences `cb` unchecked, so an empty
source is undefined behavior (modelled `none`) and non-emptiness is its
precondition; the templated covariant overload checks `cb != nullptr`,
tolerates an empty source, leaves the result empty and touches no counter. -/
theorem weak_from_shared_asymmetric (sp : SharedPtr) (s : BaseControlBlock)
    (hw : s.weak + 1 < WORD) :
    (sp.cb = true →
      WeakPtr.fromSharedSame sp s =
        some (⟨SharedPtr.get sp, true⟩, ⟨s.shared, s.weak + 1⟩)) ∧
    (sp.cb = false → WeakPtr.fromSharedSame sp s = none) ∧
    (sp.cb = true →
      WeakPtr.fromSharedCov sp s = (⟨SharedPtr.get sp, true⟩, ⟨s.shared, s.weak + 1⟩)) ∧
    (WeakPtr.fromSharedCov SharedPtr.empty s = (WeakPtr.empty, s)) := by
  refine ⟨fun hcb => ?_, fun hcb => ?_, fun hcb => ?_, ?_⟩ <;>
    simp [WeakPtr.fromSharedSame, WeakPtr.fromSharedCov, SharedPtr.get, SharedPtr.empty, WeakPtr.empty, *,
      inc64_eq hw]

/-- Witness for C9 at a non-empty strong handle and a concrete state. -/
theorem weak_from_shared_asymmetric_witness :
    WeakPtr.fromSharedSame ⟨true, true⟩ ⟨1, 0⟩ =
      some (⟨true, true⟩, ⟨1, 1⟩) ∧
    WeakPtr.fromSharedSame SharedPtr.empty ⟨1, 0⟩ = none :=
  ⟨(weak_from_shared_asymmetric ⟨true, true⟩ ⟨1, 0⟩ (by decide)).1 rfl,
   (weak_from_shared_asymmetric SharedPtr.empty ⟨1, 0⟩ (by decide)).2.1 rfl⟩

/-- C10: the templated covariant `SharedPtr` copy constructor requires a
non-empty source: on a non-empty source it shares the control block and
increments `shared`, but it runs `++shptr.cb->shared` with no null check, so
on an empty source the increment goes through a null pointer (modelled
`none`) — unlike the same-type copy constructor, which checks and is a no-op
on an empty source. -/
theorem covariant_copy_requires_nonempty (sp : SharedPtr) (s : BaseControlBlock)
    (hs : s.shared + 1 < WORD) :
    (sp.cb = true →
      SharedPtr.copyCtorCov sp s = some (sp, ⟨s.shared + 1, s.weak⟩)) ∧
    (sp.cb = false → SharedPtr.copyCtorCov sp s = none) ∧
    (SharedPtr.copyCtor SharedPtr.empty s = (SharedPtr.empty, s)) := by
  refine ⟨fun hcb => ?_, fun hcb => ?_, ?_⟩ <;>
    simp [SharedPtr.copyCtorCov, SharedPtr.copyCtor, SharedPtr.empty, *, inc64_eq hs]

/-- Witness for C10 at a non-empty and an empty covariant source. -/
theorem covariant_copy_requires_nonempty_witness :
    SharedPtr.copyCtorCov ⟨true, true⟩ ⟨1, 0⟩ = some (⟨true, true⟩, ⟨2, 0⟩) ∧
    SharedPtr.copyCtorCov SharedPtr.empty ⟨1, 0⟩ = none :=
  ⟨(covariant_copy_requires_nonempty ⟨true, true⟩ ⟨1, 0⟩ (by decide)).1 rfl,
   (covariant_copy_requires_nonempty SharedPtr.empty ⟨1, 0⟩ (by decide)).2.1 rfl⟩

/-- At any position of a valid bounded trace from the initial state, the
operation about to run is valid in the state reached by the prefix, and that
state's counters are strictly bounded. -/
lemma prefix_facts (p : List Op) (op : Op) (q : List Op)
    (hv : validFromB initCB (p ++ op :: q) = true)
    (hb : 1 + (p ++ op :: q).length < WORD) :
    op.validB (runState initCB p) = true ∧
    (runState initCB p).shared + (runState initCB p).weak + 1 < WORD := by
  rw [validFromB_append] at hv
  simp only [Bool.and_eq_true] at hv
  have hvp := hv.1
  have hvop : op.validB (runState initCB p) = true := by
    have h2 := hv.2
    simp only [validFromB, Bool.and_eq_true] at h2
    exact h2.1
  have hlen : 1 + p.length < WORD := by
    simp [List.length_append] at hb
    omega
  have hbd := (run_inv_init p hvp hlen).2
  refine ⟨hvop, ?_⟩
  simp [List.length_append] at hb
  omega

/-- C3: over every valid sequence of copy, move, reset and destroy operations
on the strong and weak handles of one control block (created by a
construction helper, so starting at `shared = 1, weak = 0`), the payload
destructor `destroy()` runs exactly once if the trace releases the last
strong handle and never otherwise; it is emitted precisely at the strong
release step performed when `shared = 1` (the last live strong handle being
destroyed or reset) — never before, never after, never twice — and no
weak-handle operation ever emits it. -/
theorem destroy_exactly_once_at_last_strong_release
    (ops : List Op) (hv : validFromB initCB ops = true)
    (hb : 1 + ops.length < WORD) :
    (countEv Ev.destroy (runEvents initCB ops) =
      (if (runState initCB ops).shared = 0 then 1 else 0)) ∧
    (∀ p op q, ops = p ++ op :: q →
      (Ev.destroy ∈ (Op.step op (runState initCB p)).2 ↔
        (op = Op.sRel ∧ (runState initCB p).shared = 1))) ∧
    (∀ p op q, ops = p ++ op :: q → op.isWeak = true →
      Ev.destroy ∉ (Op.step op (runState initCB p)).2) := by
  have hiff : ∀ p op q, ops = p ++ op :: q →
      (Ev.destroy ∈ (Op.step op (runState initCB p)).2 ↔
        (op = Op.sRel ∧ (runState initCB p).shared = 1)) := by
    intro p op q heq
    subst heq
    have hf := prefix_facts p op q hv hb
    exact step_destroy_iff op (runState initCB p) hf.1 hf.2
  refine ⟨?_, hiff, ?_⟩
  · have := (run_inv_init ops hv hb).1.1
    simpa using this
  · intro p op q heq hwk
    rw [hiff p op q heq]
    rintro ⟨rfl, -⟩
    simp [Op.isWeak] at hwk

/-- Witness for C3 on the trace that destroys the only strong handle:
`destroy()` is emitted exactly once. -/
theorem destroy_exactly_once_witness :
    countEv Ev.destroy (runEvents initCB [Op.sRel]) =
      (if (runState initCB [Op.sRel]).shared = 0 then 1 else 0) :=
  (destroy_exactly_once_at_last_strong_release [Op.sRel] (by decide)
    (by decide)).1

/-- C2: over every valid sequence of copy, move, reset and destroy operations
on the strong and weak handles of one control block that ends with both
counters at zero, `deallocate()` is emitted exactly once; at any position of
any valid trace, a step emits `deallocate()` exactly when the state it
produces has both counters simultaneously zero — whether that step is a
strong release (`SharedPtr::clear`) or a weak release (`WeakPtr::clear`) —
and the scan of the whole event trace certifies that `destroy()` is sequenced
before the `deallocate()` of the block. -/
theorem dealloc_exactly_once_at_both_zero
    (ops : List Op) (hv : validFromB initCB ops = true)
    (hb : 1 + ops.length < WORD)
    (hdone : (runState initCB ops).shared = 0 ∧
      (runState initCB ops).weak = 0) :
    countEv Ev.dealloc (runEvents initCB ops) = 1 ∧
    (∀ p op q, ops = p ++ op :: q →
      (Ev.dealloc ∈ (Op.step op (runState initCB p)).2 ↔
        ((runState initCB (p ++ [op])).shared = 0 ∧
         (runState initCB (p ++ [op])).weak = 0))) ∧
    seqRun false (runEvents initCB ops) = some true := by
  have hinv := (run_inv_init ops hv hb).1
  refine ⟨?_, ?_, ?_⟩
  · have := hinv.2.1
    simpa [hdone.1, hdone.2] using this
  · intro p op q heq
    have hf := prefix_facts p op q (heq ▸ hv) (heq ▸ hb)
    have hstep := step_dealloc_iff op (runState initCB p) hf.1 hf.2
    have hrun : runState initCB (p ++ [op]) =
        (Op.step op (runState initCB p)).1 := by
      rw [runState_append]
      simp [runState]
    rw [hrun]
    exact hstep
  · have := hinv.2.2
    simpa [hdone.1] using this

/-- Witness for C2 on the trace that destroys the only strong handle: the
block is deallocated exactly once and the scan certifies destroy before
deallocate. -/
theorem dealloc_exactly_once_witness :
    countEv Ev.dealloc (runEvents initCB [Op.sRel]) = 1 ∧
    seqRun false (runEvents initCB [Op.sRel]) = some true :=
  ⟨(dealloc_exactly_once_at_both_zero [Op.sRel] (by decide) (by decide)
      ⟨by decide, by decide⟩).1,
   (dealloc_exactly_once_at_both_zero [Op.sRel] (by decide) (by decide)
      ⟨by decide, by decide⟩).2.2⟩

end SmartPointers
